import Mathlib

set_option maxRecDepth 100000
set_option maxHeartbeats 1000000

/-!
Verification of the `change_ap_with_pc/conn.py` BLE AP-provisioning protocol.

The development shallowly embeds the Python source:

* `BindAPRequest.as_bytes` (the payload codec) becomes `as_bytes`;
* `AirWaterBLEConnector._notification_handler` becomes `notification_handler`;
* `AirWaterBLEConnector.bind_ap` becomes `bind_ap`, decomposed into the
  packet-transmit loop `runTransmit`, the 60-poll wait loop `runWait`, and the
  ack/cleanup phase `finishAttempt`.

Bytes are modelled as `Nat` (each in `[0,256)` where produced by `toBytes1`),
byte strings as `List Nat`.  Python's `int.to_bytes(1, 'little')` raises
`OverflowError` for values outside `[0,256)`, which is modelled by `toBytes1`
returning `none`.  The BLE transport (bleak) is abstracted as an environment
`Env` choosing the success of each transport call and the notification
payloads delivered at each suspension point; the observable behaviour of an
attempt is its `Outcome`, its trace of transport actions, and the final value
of the `_bind_ap_done` flag.
-/

/-- `n.to_bytes(1, 'little')`: one little-endian byte; Python raises
`OverflowError` when `n` does not fit, modelled by `none`. -/
def toBytes1 (n : Nat) : Option (List Nat) :=
  if n < 256 then some [n] else none

/-- `PACKET_SIZE = 16` from the source. -/
def PACKET_SIZE : Nat := 16

/-- UTF-8 encoding of one unicode scalar value, as Python's `str.encode()`
produces for each code point. -/
def utf8EncodeChar (c : Char) : List Nat :=
  let v := c.toNat
  if v < 0x80 then [v]
  else if v < 0x800 then [0xC0 + v / 0x40, 0x80 + v % 0x40]
  else if v < 0x10000 then
    [0xE0 + v / 0x1000, 0x80 + v / 0x40 % 0x40, 0x80 + v % 0x40]
  else
    [0xF0 + v / 0x40000, 0x80 + v / 0x1000 % 0x40, 0x80 + v / 0x40 % 0x40,
      0x80 + v % 0x40]

/-- `s.encode()`: the UTF-8 bytes of a Python `str`. -/
def strBytes (s : String) : List Nat :=
  (s.data.map utf8EncodeChar).flatten

/-- `BindAPRequest.as_bytes`: `len(ssid).to_bytes(1,'little') + ssid.encode()
+ len(password).to_bytes(1,'little') + password.encode()`.  Note Python's
`len` counts code points, not encoded bytes, and `to_bytes(1, ...)` raises
`OverflowError` (here `none`) when a count exceeds 255. -/
def as_bytes (ssid password : String) : Option (List Nat) :=
  match toBytes1 ssid.length with
  | none => none
  | some a =>
    match toBytes1 password.length with
    | none => none
    | some b => some (a ++ strBytes ssid ++ (b ++ strBytes password))

/-- The exact completion payload `b"\x00\x11\x00\x15\x01"`. -/
def completionSignal : List Nat := [0x00, 0x11, 0x00, 0x15, 0x01]

/-- `AirWaterBLEConnector._notification_handler`: any payload other than the
completion signal is only logged and leaves the flag as it was; the exact
signal sets the flag. -/
def notification_handler (flag : Bool) (data : List Nat) : Bool :=
  if data ≠ completionSignal then flag
  else true

/-- The class attribute `_bind_ap_done = False`: the flag value a fresh
`AirWaterBLEConnector` instance starts with. -/
def bind_ap_done_init : Bool := false

/-- `packet_count = int(request_size / PACKET_SIZE)`, incremented when
`request_size % PACKET_SIZE > 0`.  (For all reachable sizes the float
division `request_size / 16` is exact, so `int(...)` is floor division.) -/
def packet_count (request_size : Nat) : Nat :=
  if request_size % PACKET_SIZE > 0 then request_size / PACKET_SIZE + 1
  else request_size / PACKET_SIZE

/-- `csum = (seq + 1 << 4) + packet_count`; in Python `+` binds tighter than
`<<`, so this is `((seq + 1) <<< 4) + packet_count`. -/
def csum (seq pc : Nat) : Nat := ((seq + 1) <<< 4) + pc

/-- One iteration body of the transmit loop: build
`seq.to_bytes(1) + csum.to_bytes(1) + b"\x00\x15" + request[f:s]` with
`f = seq*PACKET_SIZE`, `s = f + PACKET_SIZE`; `none` models the
`OverflowError` a `to_bytes` call may raise. -/
def mkPacket (request : List Nat) (seq pc : Nat) : Option (List Nat) :=
  match toBytes1 seq with
  | none => none
  | some sb =>
    match toBytes1 (csum seq pc) with
    | none => none
    | some cb =>
      some (sb ++ cb ++ [0x00, 0x15] ++
        (request.drop (seq * PACKET_SIZE)).take PACKET_SIZE)

/-- Observable transport actions of one `bind_ap` attempt. -/
inductive BLEAction where
  | startNotify
  | write (packet : List Nat)
  | sleep300
  | stopNotify
deriving DecidableEq

/-- How a `bind_ap` attempt ends.  `timeout` is the
`Exception("AP binding timeout")`; `transportError` a `BleakError` raised by
a transport call; `overflowError` an `OverflowError` from `to_bytes`;
`nameError` the `NameError` Python would raise reusing the loop variable
`seq` after a zero-iteration loop. -/
inductive Outcome where
  | success
  | timeout
  | transportError
  | overflowError
  | nameError
deriving DecidableEq

/-- The abstracted BLE environment: whether `start_notify` succeeds, whether
the `k`-th `write_gatt_char` succeeds (data packet `seq` is write `seq`, the
ack is write `packet_count`), the notification payloads delivered around the
`k`-th data write and during the `i`-th `asyncio.sleep(0.3)`, and whether the
final `stop_notify` succeeds. -/
structure Env where
  subscribeOk : Bool
  writeOk : Nat → Bool
  writeNotifs : Nat → List (List Nat)
  notifs : Nat → List (List Nat)
  stopOk : Bool

/-- The transmit loop `for seq in range(0, packet_count)`, run with
`fuel = pc - seq` remaining iterations: build the packet (possibly raising
`OverflowError`), write it (possibly raising `BleakError`), letting any
notifications delivered around the write run the handler.  Returns the
successful writes in order, the flag value, and the raised error if any. -/
def runTransmit (writeOk : Nat → Bool) (deliver : Nat → List (List Nat))
    (request : List Nat) (pc : Nat) :
    Nat → Nat → Bool → List BLEAction × Bool × Option Outcome
  | 0, _, flag => ([], flag, none)
  | Nat.succ fuel, seq, flag =>
    match mkPacket request seq pc with
    | none => ([], flag, some Outcome.overflowError)
    | some pkt =>
      if writeOk seq then
        let flag2 := (deliver seq).foldl notification_handler flag
        let r := runTransmit writeOk deliver request pc fuel (seq + 1) flag2
        (BLEAction.write pkt :: r.1, r.2.1, r.2.2)
      else ([], flag, some Outcome.transportError)

/-- The wait loop `for _ in range(0, 60): await asyncio.sleep(0.3); if
self._bind_ap_done: break`, started with `fuel = 60` at sleep index `i = 0`.
Notifications delivered during sleep `i` run the handler; the check follows
the sleep.  Returns the flag after the loop and the number of sleep/poll
iterations executed. -/
def runWait (notifs : Nat → List (List Nat)) :
    Nat → Nat → Bool → Bool × Nat
  | _, 0, flag => (flag, 0)
  | i, Nat.succ f, flag =>
    let flag2 := (notifs i).foldl notification_handler flag
    if flag2 then (flag2, 1)
    else
      let r := runWait notifs (i + 1) f flag2
      (r.1, r.2 + 1)

/-- The tail of `bind_ap` after all data packets are written: the 60-poll
wait, the timeout check, the ack packet `(seq + 1).to_bytes(1,'little') +
b"\x11\x00\x16"` built from the loop's last `seq = packet_count - 1`
(`NameError` if the loop never ran), the ack write (success decided by
`ackOk`), and the suppressed `stop_notify` (success decided by `stopOk`). -/
def finishAttempt (notifs : Nat → List (List Nat)) (ackOk stopOk : Bool)
    (pc : Nat) (trace1 : List BLEAction) (flag : Bool) :
    Outcome × List BLEAction × Bool :=
  let w := runWait notifs 0 60 flag
  let trace2 := trace1 ++ List.replicate w.2 BLEAction.sleep300
  if w.1 then
    if pc = 0 then (Outcome.nameError, trace2, w.1)
    else
      -- the loop variable `seq` holds `pc - 1` after the loop
      match toBytes1 ((pc - 1) + 1) with
      | none => (Outcome.overflowError, trace2, w.1)
      | some sb =>
        if ackOk then
          -- `with suppress(BleakError): await client.stop_notify(...)`:
          -- the call's failure is swallowed and its result discarded.
          let _stopFailed : Bool := !stopOk
          (Outcome.success,
            trace2 ++ [BLEAction.write (sb ++ [0x11, 0x00, 0x16]),
              BLEAction.stopNotify], w.1)
        else (Outcome.transportError, trace2, w.1)
  else (Outcome.timeout, trace2, w.1)

/-- The part of `bind_ap` after the payload has been encoded: run the
transmit loop on the blob, surface its error if it raised one, otherwise run
the wait/ack/cleanup phase. -/
def bindTransfer (env : Env) (flag0 : Bool) (request : List Nat) :
    Outcome × List BLEAction × Bool :=
  match runTransmit env.writeOk env.writeNotifs request
      (packet_count request.length) (packet_count request.length) 0 flag0 with
  | (txtrace, flag1, some e) => (e, BLEAction.startNotify :: txtrace, flag1)
  | (txtrace, flag1, none) =>
    finishAttempt env.notifs (env.writeOk (packet_count request.length))
      env.stopOk (packet_count request.length)
      (BLEAction.startNotify :: txtrace) flag1

/-- `AirWaterBLEConnector.bind_ap`: subscribe, encode, transmit, wait, ack,
unsubscribe.  Returns the outcome, the trace of transport actions, and the
final `_bind_ap_done` flag given its entry value `flag0`. -/
def bind_ap (env : Env) (flag0 : Bool) (ssid password : String) :
    Outcome × List BLEAction × Bool :=
  if env.subscribeOk then
    match as_bytes ssid password with
    | none => (Outcome.overflowError, [BLEAction.startNotify], flag0)
    | some request => bindTransfer env flag0 request
  else (Outcome.transportError, [], flag0)

/-- The quiet all-succeeding environment: every transport call succeeds and
no notification is ever delivered. -/
def envQuiet : Env :=
  { subscribeOk := true
    writeOk := fun _ => true
    writeNotifs := fun _ => []
    notifs := fun _ => []
    stopOk := true }

/-- Environment like `envQuiet` except that the device delivers the
completion signal during every sleep. -/
def envSignal : Env := { envQuiet with notifs := fun _ => [completionSignal] }

/-- Duration of one `asyncio.sleep(0.3)` in seconds. -/
def sleepSeconds : ℚ := 3 / 10

/-- Modelled from the spec: decode one UTF-8-encoded code point from the
front of a byte list (the text-decoding half of the inverse parse, absent
from the source). -/
def utf8DecodeChar (bs : List Nat) : Option (Char × List Nat) :=
  match bs with
  | [] => none
  | b :: rest =>
    if b < 0x80 then some (Char.ofNat b, rest)
    else if b < 0xC0 then none
    else if b < 0xE0 then
      match rest with
      | b1 :: rest1 =>
        if 0x80 ≤ b1 ∧ b1 < 0xC0 then
          some (Char.ofNat ((b - 0xC0) * 0x40 + (b1 - 0x80)), rest1)
        else none
      | [] => none
    else if b < 0xF0 then
      match rest with
      | b1 :: b2 :: rest2 =>
        if (0x80 ≤ b1 ∧ b1 < 0xC0) ∧ (0x80 ≤ b2 ∧ b2 < 0xC0) then
          some (Char.ofNat ((b - 0xE0) * 0x1000 + (b1 - 0x80) * 0x40 +
            (b2 - 0x80)), rest2)
        else none
      | _ => none
    else if b < 0xF8 then
      match rest with
      | b1 :: b2 :: b3 :: rest3 =>
        if (0x80 ≤ b1 ∧ b1 < 0xC0) ∧ (0x80 ≤ b2 ∧ b2 < 0xC0) ∧
            (0x80 ≤ b3 ∧ b3 < 0xC0) then
          some (Char.ofNat ((b - 0xF0) * 0x40000 + (b1 - 0x80) * 0x1000 +
            (b2 - 0x80) * 0x40 + (b3 - 0x80)), rest3)
        else none
      | _ => none
    else none

/-- Modelled from the spec: decode a whole byte list as UTF-8 text; `fuel`
bounds the recursion (each step consumes at least one byte, so fuel equal to
the list length suffices). -/
def decodeChars (fuel : Nat) (bs : List Nat) : Option (List Char) :=
  match fuel, bs with
  | _, [] => some []
  | 0, _ :: _ => none
  | Nat.succ f, bs =>
    match utf8DecodeChar bs with
    | none => none
    | some (c, rest) =>
      match decodeChars f rest with
      | none => none
      | some cs => some (c :: cs)

/-- Modelled from the spec: the inverse length-prefixed parse of a
`SerializedBlob` `len(ssid) || ssid_bytes || len(password) ||
password_bytes`; the whole blob must be consumed exactly and both byte
fields must decode as UTF-8 text. -/
def parseBlob (blob : List Nat) : Option (String × String) :=
  match blob with
  | [] => none
  | n :: rest =>
    if n ≤ rest.length then
      let sBytes := rest.take n
      match rest.drop n with
      | [] => none
      | m :: rest2 =>
        if m = rest2.length then
          match decodeChars sBytes.length sBytes,
              decodeChars rest2.length rest2 with
          | some cs, some ps => some (String.mk cs, String.mk ps)
          | _, _ => none
        else none
    else none

/-! ### Basic lemmas about the byte-level helpers -/

theorem toBytes1_some (n : Nat) (h : n < 256) : toBytes1 n = some [n] := by
  simp [toBytes1, h]

theorem toBytes1_none (n : Nat) (h : 256 ≤ n) : toBytes1 n = none := by
  simp [toBytes1]; omega

theorem toBytes1_some_inv {n : Nat} {bs : List Nat} (h : toBytes1 n = some bs) :
    bs = [n] ∧ n < 256 := by
  unfold toBytes1 at h
  split at h
  · exact ⟨(Option.some.injEq _ _ ▸ h).symm, by omega⟩
  · exact absurd h (by simp)

theorem csum_eq (seq pc : Nat) : csum seq pc = (seq + 1) * 16 + pc := by
  simp [csum, Nat.shiftLeft_eq]

theorem csum_lt_256 {seq pc : Nat} (h1 : seq < pc) (h2 : pc ≤ 15) :
    csum seq pc < 256 := by
  rw [csum_eq]; omega

theorem mkPacket_some (request : List Nat) (seq pc : Nat)
    (h1 : seq < 256) (h2 : csum seq pc < 256) :
    mkPacket request seq pc =
      some (seq :: csum seq pc :: 0x00 :: 0x15 ::
        (request.drop (seq * PACKET_SIZE)).take PACKET_SIZE) := by
  simp [mkPacket, toBytes1_some _ h1, toBytes1_some _ h2]

theorem mkPacket_some_inv {request : List Nat} {seq pc : Nat} {pkt : List Nat}
    (h : mkPacket request seq pc = some pkt) :
    pkt = seq :: csum seq pc :: 0x00 :: 0x15 ::
        (request.drop (seq * PACKET_SIZE)).take PACKET_SIZE ∧
      seq < 256 ∧ csum seq pc < 256 := by
  unfold mkPacket at h
  rcases hs : toBytes1 seq with _ | sb
  · rw [hs] at h; exact absurd h (by simp)
  rcases hc : toBytes1 (csum seq pc) with _ | cb
  · rw [hs, hc] at h; exact absurd h (by simp)
  rw [hs, hc] at h
  obtain ⟨hsb, hslt⟩ := toBytes1_some_inv hs
  obtain ⟨hcb, hclt⟩ := toBytes1_some_inv hc
  subst hsb hcb
  refine ⟨?_, hslt, hclt⟩
  simpa using h.symm

theorem mkPacket_none_iff {request : List Nat} {seq pc : Nat} :
    mkPacket request seq pc = none ↔ 256 ≤ seq ∨ 256 ≤ csum seq pc := by
  constructor
  · intro h
    by_contra hc
    push_neg at hc
    rw [mkPacket_some request seq pc (by omega) (by omega)] at h
    exact absurd h (by simp)
  · intro h
    unfold mkPacket
    rcases h with h | h
    · rw [toBytes1_none _ h]
    · rw [toBytes1_none _ h]
      cases toBytes1 seq <;> rfl

/-! ### Lemmas about the notification handler and the wait loop -/

theorem notification_handler_true (d : List Nat) :
    notification_handler true d = true := by
  unfold notification_handler; split <;> rfl

theorem notification_handler_not_signal {d : List Nat} (flag : Bool)
    (h : d ≠ completionSignal) : notification_handler flag d = flag := by
  simp [notification_handler, h]

theorem foldl_handler_true (l : List (List Nat)) :
    l.foldl notification_handler true = true := by
  induction l with
  | nil => rfl
  | cons d l ih => rw [List.foldl_cons, notification_handler_true]; exact ih

theorem foldl_handler_no_signal {l : List (List Nat)}
    (h : completionSignal ∉ l) :
    l.foldl notification_handler false = false := by
  induction l with
  | nil => rfl
  | cons d l ih =>
    rw [List.foldl_cons,
      notification_handler_not_signal false (by rintro rfl; exact h (by simp))]
    exact ih (fun hm => h (List.mem_cons_of_mem _ hm))

theorem runWait_true (notifs : Nat → List (List Nat)) (i f : Nat) :
    runWait notifs i (f + 1) true = (true, 1) := by
  simp [runWait, foldl_handler_true]

theorem runWait_no_signal {notifs : Nat → List (List Nat)}
    (h : ∀ i, completionSignal ∉ notifs i) (i fuel : Nat) :
    runWait notifs i fuel false = (false, fuel) := by
  induction fuel generalizing i with
  | zero => rfl
  | succ f ih =>
    simp only [runWait, foldl_handler_no_signal (h i), ih (i + 1)]
    rfl


/-! ### Lemmas about the transmit loop -/

theorem runTransmit_mem {writeOk : Nat → Bool} {deliver : Nat → List (List Nat)}
    {request : List Nat} {pc : Nat} :
    ∀ {fuel seq : Nat} {flag : Bool} {x : BLEAction},
      x ∈ (runTransmit writeOk deliver request pc fuel seq flag).1 →
      ∃ i pkt, x = BLEAction.write pkt ∧ mkPacket request i pc = some pkt := by
  intro fuel
  induction fuel with
  | zero => intro seq flag x hx; exact absurd hx (List.not_mem_nil x)
  | succ f ih =>
    intro seq flag x hx
    rw [runTransmit] at hx
    split at hx
    · exact absurd hx (List.not_mem_nil x)
    next pkt hm =>
      split at hx
      · rcases List.mem_cons.mp hx with h | h
        · exact ⟨seq, pkt, h, hm⟩
        · exact ih h
      · exact absurd hx (List.not_mem_nil x)

theorem runTransmit_flag_true {writeOk : Nat → Bool}
    {deliver : Nat → List (List Nat)} {request : List Nat} {pc : Nat} :
    ∀ (fuel seq : Nat),
      (runTransmit writeOk deliver request pc fuel seq true).2.1 = true := by
  intro fuel
  induction fuel with
  | zero => intro seq; rfl
  | succ f ih =>
    intro seq
    rw [runTransmit]
    split
    · rfl
    next pkt hm =>
      split
      · simp only [foldl_handler_true]
        exact ih (seq + 1)
      · rfl

theorem runTransmit_flag_no_signal {writeOk : Nat → Bool}
    {deliver : Nat → List (List Nat)} {request : List Nat} {pc : Nat}
    (hd : ∀ i, completionSignal ∉ deliver i) :
    ∀ (fuel seq : Nat),
      (runTransmit writeOk deliver request pc fuel seq false).2.1 = false := by
  intro fuel
  induction fuel with
  | zero => intro seq; rfl
  | succ f ih =>
    intro seq
    rw [runTransmit]
    split
    · rfl
    next pkt hm =>
      split
      · simp only [foldl_handler_no_signal (hd seq)]
        exact ih (seq + 1)
      · rfl

theorem runTransmit_ok {writeOk : Nat → Bool}
    {deliver : Nat → List (List Nat)} {request : List Nat} {pc : Nat}
    (hw : ∀ k, writeOk k = true) (hpc : pc ≤ 15) :
    ∀ (fuel seq : Nat) (flag : Bool), seq + fuel = pc →
      (runTransmit writeOk deliver request pc fuel seq flag).1 =
        (List.range' seq fuel).map (fun i =>
          BLEAction.write (i :: csum i pc :: 0x00 :: 0x15 ::
            (request.drop (i * PACKET_SIZE)).take PACKET_SIZE)) ∧
      (runTransmit writeOk deliver request pc fuel seq flag).2.2 = none := by
  intro fuel
  induction fuel with
  | zero => intro seq flag hseq; exact ⟨rfl, rfl⟩
  | succ f ih =>
    intro seq flag hseq
    have hlt : seq < pc := by omega
    have hm := mkPacket_some request seq pc
      (by omega : seq < 256) (csum_lt_256 hlt hpc)
    obtain ⟨ih1, ih2⟩ := ih (seq + 1)
      ((deliver seq).foldl notification_handler flag) (by omega)
    rw [List.range'_succ, List.map_cons]
    rw [runTransmit, hm]
    simp only [hw seq, if_true]
    exact ⟨congrArg _ ih1, ih2⟩

/-! ### Arithmetic facts about the packet count and the chunking -/

theorem packet_count_eq (n : Nat) : packet_count n = (n + 15) / 16 := by
  unfold packet_count PACKET_SIZE
  split <;> omega

theorem packet_count_pos {n : Nat} (h : 1 ≤ n) : 1 ≤ packet_count n := by
  rw [packet_count_eq]; omega

theorem chunks_flatten :
    ∀ (n : Nat) (l : List Nat), packet_count l.length = n →
      ((List.range n).map
        (fun i => (l.drop (i * PACKET_SIZE)).take PACKET_SIZE)).flatten = l := by
  intro n
  induction n with
  | zero =>
    intro l hl
    rw [packet_count_eq] at hl
    have h0 : l.length = 0 := by omega
    rw [List.length_eq_zero] at h0
    subst h0; rfl
  | succ n ih =>
    intro l hl
    have hlen : packet_count (l.drop PACKET_SIZE).length = n := by
      rw [packet_count_eq] at hl ⊢
      rw [List.length_drop]
      unfold PACKET_SIZE
      omega
    rw [List.range_succ_eq_map, List.map_cons, List.flatten_cons, List.map_map]
    have hmap : (List.range n).map
          ((fun i => (l.drop (i * PACKET_SIZE)).take PACKET_SIZE) ∘ Nat.succ) =
        (List.range n).map
          (fun i => ((l.drop PACKET_SIZE).drop (i * PACKET_SIZE)).take PACKET_SIZE) := by
      refine List.map_congr_left ?_
      intro i _
      have hdrop : (l.drop PACKET_SIZE).drop (i * PACKET_SIZE) =
          l.drop (Nat.succ i * PACKET_SIZE) := by
        rw [List.drop_drop]
        exact congrArg (fun m => l.drop m) (by unfold PACKET_SIZE; omega)
      simp only [Function.comp_apply, hdrop]
    rw [hmap, ih (l.drop PACKET_SIZE) hlen]
    simp only [Nat.zero_mul, List.drop_zero]
    exact List.take_append_drop PACKET_SIZE l

/-! ### Lemmas about the codec -/

theorem as_bytes_some (ssid password : String)
    (hs : ssid.length ≤ 255) (hp : password.length ≤ 255) :
    as_bytes ssid password =
      some (ssid.length ::
        (strBytes ssid ++ (password.length :: strBytes password))) := by
  unfold as_bytes
  rw [toBytes1_some ssid.length (by omega), toBytes1_some password.length (by omega)]
  simp

theorem as_bytes_none_iff {ssid password : String} :
    as_bytes ssid password = none ↔
      255 < ssid.length ∨ 255 < password.length := by
  constructor
  · intro h
    by_contra hc
    push_neg at hc
    rw [as_bytes_some ssid password (by omega) (by omega)] at h
    exact absurd h (by simp)
  · intro h
    unfold as_bytes
    rcases h with h | h
    · rw [toBytes1_none ssid.length (by omega)]
    · rw [toBytes1_none password.length (by omega)]
      cases toBytes1 ssid.length <;> rfl

theorem as_bytes_some_inv {ssid password : String} {request : List Nat}
    (h : as_bytes ssid password = some request) :
    request = ssid.length ::
        (strBytes ssid ++ (password.length :: strBytes password)) ∧
      ssid.length ≤ 255 ∧ password.length ≤ 255 := by
  have hn : ¬(255 < ssid.length ∨ 255 < password.length) := by
    intro hc
    rw [as_bytes_none_iff.mpr hc] at h
    exact absurd h (by simp)
  push_neg at hn
  rw [as_bytes_some ssid password (by omega) (by omega)] at h
  exact ⟨(Option.some.inj h).symm, by omega, by omega⟩

theorem as_bytes_length {ssid password : String} {request : List Nat}
    (h : as_bytes ssid password = some request) : 2 ≤ request.length := by
  obtain ⟨hreq, -, -⟩ := as_bytes_some_inv h
  subst hreq
  simp only [List.length_cons, List.length_append]
  omega

/-! ### ASCII strings: encoding and the inverse parse -/

theorem utf8EncodeChar_ascii {c : Char} (h : c.toNat < 128) :
    utf8EncodeChar c = [c.toNat] := by
  simp only [utf8EncodeChar]
  rw [if_pos h]

theorem encodeList_ascii :
    ∀ (cs : List Char), (∀ c ∈ cs, c.toNat < 128) →
      (cs.map utf8EncodeChar).flatten = cs.map Char.toNat := by
  intro cs
  induction cs with
  | nil => intro h; rfl
  | cons c cs ih =>
    intro h
    rw [List.map_cons, List.flatten_cons, utf8EncodeChar_ascii (h c (by simp)),
      List.map_cons, ih (fun d hd => h d (List.mem_cons_of_mem _ hd))]
    rfl

theorem strBytes_ascii {s : String} (h : ∀ c ∈ s.data, c.toNat < 128) :
    strBytes s = s.data.map Char.toNat :=
  encodeList_ascii s.data h

theorem strBytes_ascii_length {s : String} (h : ∀ c ∈ s.data, c.toNat < 128) :
    (strBytes s).length = s.length := by
  rw [strBytes_ascii h, List.length_map]
  rfl

theorem utf8DecodeChar_ascii {b : Nat} (h : b < 128) (rest : List Nat) :
    utf8DecodeChar (b :: rest) = some (Char.ofNat b, rest) := by
  simp only [utf8DecodeChar]
  rw [if_pos h]

theorem decodeChars_ascii :
    ∀ (cs : List Char) (fuel : Nat), cs.length ≤ fuel →
      (∀ c ∈ cs, c.toNat < 128) →
      decodeChars fuel (cs.map Char.toNat) = some cs := by
  intro cs
  induction cs with
  | nil => intro fuel _ _; cases fuel <;> rfl
  | cons c cs ih =>
    intro fuel hf h
    cases fuel with
    | zero => simp only [List.length_cons] at hf; omega
    | succ f =>
      have hc : c.toNat < 128 := h c (by simp)
      have hrec := ih f (by simp only [List.length_cons] at hf; omega)
        (fun d hd => h d (List.mem_cons_of_mem _ hd))
      simp only [List.map_cons, decodeChars, utf8DecodeChar_ascii hc,
        Char.ofNat_toNat, hrec]

theorem parseBlob_roundtrip_ascii (ssid password : String)
    (hs : ∀ c ∈ ssid.data, c.toNat < 128)
    (hp : ∀ c ∈ password.data, c.toNat < 128) :
    parseBlob (ssid.length ::
        (strBytes ssid ++ (password.length :: strBytes password))) =
      some (ssid, password) := by
  have hsb := strBytes_ascii hs
  have hpb := strBytes_ascii hp
  have hslen : (strBytes ssid).length = ssid.length := strBytes_ascii_length hs
  have hplen : (strBytes password).length = password.length := strBytes_ascii_length hp
  have htake : (strBytes ssid ++
      (password.length :: strBytes password)).take ssid.length = strBytes ssid := by
    rw [← hslen]; exact List.take_left _ _
  have hdrop : (strBytes ssid ++
      (password.length :: strBytes password)).drop ssid.length =
      password.length :: strBytes password := by
    rw [← hslen]; exact List.drop_left _ _
  have hcond : ssid.length ≤
      (strBytes ssid ++ (password.length :: strBytes password)).length := by
    rw [List.length_append, hslen]; omega
  simp only [parseBlob, htake, hdrop]
  rw [if_pos hcond, if_pos hplen.symm]
  rw [hsb, hpb]
  rw [decodeChars_ascii ssid.data _ (by rw [List.length_map]) hs,
    decodeChars_ascii password.data _ (by rw [List.length_map]) hp]

/-! ### Lemmas about the wait/ack phase and error paths -/

theorem runTransmit_err_ne_success {writeOk : Nat → Bool}
    {deliver : Nat → List (List Nat)} {request : List Nat} {pc : Nat} :
    ∀ (fuel seq : Nat) (flag : Bool),
      (runTransmit writeOk deliver request pc fuel seq flag).2.2 ≠
        some Outcome.success := by
  intro fuel
  induction fuel with
  | zero => intro seq flag h; exact absurd h (by simp [runTransmit])
  | succ f ih =>
    intro seq flag h
    rw [runTransmit] at h
    split at h
    · exact absurd h (by simp)
    · split at h
      · exact ih (seq + 1) _ h
      · exact absurd h (by simp)

theorem stop_not_mem_txtrace {writeOk : Nat → Bool}
    {deliver : Nat → List (List Nat)} {request : List Nat}
    {pc fuel seq : Nat} {flag : Bool} :
    BLEAction.stopNotify ∉
      (runTransmit writeOk deliver request pc fuel seq flag).1 := by
  intro hmem
  obtain ⟨i, pkt, heq, -⟩ := runTransmit_mem hmem
  exact absurd heq (by simp)

theorem sleep_not_mem_txtrace {writeOk : Nat → Bool}
    {deliver : Nat → List (List Nat)} {request : List Nat}
    {pc fuel seq : Nat} {flag : Bool} :
    BLEAction.sleep300 ∉
      (runTransmit writeOk deliver request pc fuel seq flag).1 := by
  intro hmem
  obtain ⟨i, pkt, heq, -⟩ := runTransmit_mem hmem
  exact absurd heq (by simp)

theorem ack_not_mem_txtrace {writeOk : Nat → Bool}
    {deliver : Nat → List (List Nat)} {request : List Nat}
    {pc fuel seq : Nat} {flag : Bool} (ackByte : Nat) :
    BLEAction.write [ackByte, 0x11, 0x00, 0x16] ∉
      (runTransmit writeOk deliver request pc fuel seq flag).1 := by
  intro hmem
  obtain ⟨i, pkt, heq, hmk⟩ := runTransmit_mem hmem
  obtain ⟨hpkt, -, -⟩ := mkPacket_some_inv hmk
  injection heq with hlist
  rw [hpkt] at hlist
  simp at hlist


theorem finishAttempt_timeout {notifs : Nat → List (List Nat)}
    (h : ∀ i, completionSignal ∉ notifs i) (ackOk stopOk : Bool)
    (pc : Nat) (trace1 : List BLEAction) :
    finishAttempt notifs ackOk stopOk pc trace1 false =
      (Outcome.timeout, trace1 ++ List.replicate 60 BLEAction.sleep300,
        false) := by
  unfold finishAttempt
  rw [runWait_no_signal h 0 60]
  rfl

theorem finishAttempt_done {notifs : Nat → List (List Nat)} (stopOk : Bool)
    (pc : Nat) (hpc : pc ≠ 0) (hb : pc < 256) (trace1 : List BLEAction) :
    finishAttempt notifs true stopOk pc trace1 true =
      (Outcome.success,
        trace1 ++ List.replicate 1 BLEAction.sleep300 ++
          [BLEAction.write [pc - 1 + 1, 0x11, 0x00, 0x16],
            BLEAction.stopNotify],
        true) := by
  have h60 : runWait notifs 0 60 true = (true, 1) := runWait_true notifs 0 59
  have hb2 : pc - 1 + 1 < 256 := by omega
  unfold finishAttempt
  rw [h60, toBytes1_some (pc - 1 + 1) hb2]
  simp [hpc, List.append_assoc]

theorem finishAttempt_success_inv {notifs : Nat → List (List Nat)}
    {ackOk stopOk : Bool} {pc : Nat} {trace1 : List BLEAction} {flag : Bool}
    {tr : List BLEAction} {fl : Bool}
    (h : finishAttempt notifs ackOk stopOk pc trace1 flag =
      (Outcome.success, tr, fl)) :
    ∃ n, pc ≠ 0 ∧ pc - 1 + 1 < 256 ∧ fl = true ∧
      tr = trace1 ++ List.replicate n BLEAction.sleep300 ++
        [BLEAction.write [pc - 1 + 1, 0x11, 0x00, 0x16],
          BLEAction.stopNotify] := by
  unfold finishAttempt at h
  rcases hw : runWait notifs 0 60 flag with ⟨wf, wn⟩
  rw [hw] at h
  rcases wf with _ | _
  · simp at h
  · by_cases hpc : pc = 0
    · simp [hpc] at h
    · rcases ht : toBytes1 (pc - 1 + 1) with _ | sb
      · rw [ht] at h
        simp [hpc] at h
      · obtain ⟨hsb, hblt⟩ := toBytes1_some_inv ht
        subst hsb
        rw [ht] at h
        by_cases hack : ackOk = true
        · simp [hpc, hack] at h
          refine ⟨wn, hpc, hblt, h.2, ?_⟩
          rw [← h.1]
          simp [List.append_assoc]
        · simp [hpc, hack] at h
  
theorem finishAttempt_flag_true {notifs : Nat → List (List Nat)}
    {ackOk stopOk : Bool} {pc : Nat} {trace1 : List BLEAction} :
    (finishAttempt notifs ackOk stopOk pc trace1 true).2.2 = true := by
  have h60 : runWait notifs 0 60 true = (true, 1) := runWait_true notifs 0 59
  unfold finishAttempt
  rw [h60]
  by_cases hpc : pc = 0
  · simp [hpc]
  · rcases ht : toBytes1 (pc - 1 + 1) with _ | sb
    · simp [hpc, ht]
    · rcases hack : ackOk with _ | _ <;> simp [hpc, ht, hack]

theorem finishAttempt_stop_not_mem {notifs : Nat → List (List Nat)}
    {ackOk stopOk : Bool} {pc : Nat} {trace1 : List BLEAction} {flag : Bool}
    (h1 : BLEAction.stopNotify ∉ trace1)
    (h2 : (finishAttempt notifs ackOk stopOk pc trace1 flag).1 ≠
      Outcome.success) :
    BLEAction.stopNotify ∉
      (finishAttempt notifs ackOk stopOk pc trace1 flag).2.1 := by
  have htr2 : ∀ n : Nat, BLEAction.stopNotify ∉
      trace1 ++ List.replicate n BLEAction.sleep300 := by
    intro n hm
    rcases List.mem_append.mp hm with hm | hm
    · exact h1 hm
    · exact absurd (List.eq_of_mem_replicate hm) (by simp)
  unfold finishAttempt at h2 ⊢
  rcases hw : runWait notifs 0 60 flag with ⟨wf, wn⟩
  rcases wf with _ | _
  · simpa using htr2 wn
  · by_cases hpc : pc = 0
    · simp [hpc]
      simpa using htr2 wn
    · rcases ht : toBytes1 (pc - 1 + 1) with _ | sb
      · simp [hpc, ht]
        simpa using htr2 wn
      · by_cases hack : ackOk = true
        · rw [ht, hw] at h2
          simp [hpc, hack] at h2
        · simp [hpc, hack]
          simpa using htr2 wn

/-! ### Structural lemmas about `bind_ap` -/

theorem runTransmit_err_cases {writeOk : Nat → Bool}
    {deliver : Nat → List (List Nat)} {request : List Nat} {pc : Nat} :
    ∀ (fuel seq : Nat) (flag : Bool) (e : Outcome),
      (runTransmit writeOk deliver request pc fuel seq flag).2.2 = some e →
      e = Outcome.overflowError ∨ e = Outcome.transportError := by
  intro fuel
  induction fuel with
  | zero => intro seq flag e h; exact absurd h (by simp [runTransmit])
  | succ f ih =>
    intro seq flag e h
    rw [runTransmit] at h
    split at h
    · exact Or.inl (Option.some.inj h).symm
    · split at h
      · exact ih (seq + 1) _ e h
      · exact Or.inr (Option.some.inj h).symm

theorem finishAttempt_ne_nameError {notifs : Nat → List (List Nat)}
    {ackOk stopOk : Bool} {pc : Nat} {trace1 : List BLEAction} {flag : Bool}
    (hpc : pc ≠ 0) :
    (finishAttempt notifs ackOk stopOk pc trace1 flag).1 ≠
      Outcome.nameError := by
  unfold finishAttempt
  rcases hw : runWait notifs 0 60 flag with ⟨wf, wn⟩
  rcases wf with _ | _
  · simp
  · rcases ht : toBytes1 (pc - 1 + 1) with _ | sb
    · simp [hpc]
    · by_cases hack : ackOk = true <;> simp [hpc, hack]

theorem bind_ap_success_inv {env : Env} {flag0 : Bool}
    {ssid password : String} {tr : List BLEAction} {fl : Bool}
    (h : bind_ap env flag0 ssid password = (Outcome.success, tr, fl)) :
    ∃ request n txtrace,
      as_bytes ssid password = some request ∧
      packet_count request.length ≠ 0 ∧
      packet_count request.length - 1 + 1 < 256 ∧ fl = true ∧
      (∀ x ∈ txtrace, ∃ i pkt, x = BLEAction.write pkt ∧
        mkPacket request i (packet_count request.length) = some pkt) ∧
      tr = (BLEAction.startNotify :: txtrace) ++
        List.replicate n BLEAction.sleep300 ++
        [BLEAction.write
          [packet_count request.length - 1 + 1, 0x11, 0x00, 0x16],
          BLEAction.stopNotify] := by
  unfold bind_ap at h
  split at h
  · split at h
    · exact absurd h (by simp)
    next request ha =>
      unfold bindTransfer at h
      split at h
      next txtrace flag1 e heq =>
        injection h with h1 h2
        have hne : (runTransmit env.writeOk env.writeNotifs request
            (packet_count request.length) (packet_count request.length) 0
            flag0).2.2 ≠ some Outcome.success :=
          runTransmit_err_ne_success (packet_count request.length) 0 flag0
        rw [heq] at hne
        exact absurd (congrArg some h1) hne
      next txtrace flag1 heq =>
        obtain ⟨n, hpc0, hblt, hfl, htr⟩ := finishAttempt_success_inv h
        refine ⟨request, n, txtrace, ha, hpc0, hblt, hfl, ?_, htr⟩
        intro x hx
        exact runTransmit_mem (by rw [heq]; exact hx)
  · exact absurd h (by simp)

theorem bind_ap_stop_not_mem {env : Env} {flag0 : Bool}
    {ssid password : String} {out : Outcome} {tr : List BLEAction} {fl : Bool}
    (hres : bind_ap env flag0 ssid password = (out, tr, fl))
    (h : out ≠ Outcome.success) :
    BLEAction.stopNotify ∉ tr := by
  unfold bind_ap at hres
  split at hres
  · split at hres
    · injection hres with h1 h2
      injection h2 with h2 h3
      rw [← h2]
      simp
    next request ha =>
      unfold bindTransfer at hres
      split at hres
      next txtrace flag1 e heq =>
        injection hres with h1 h2
        injection h2 with h2 h3
        rw [← h2]
        intro hmem
        rcases List.mem_cons.mp hmem with hm | hm
        · exact absurd hm.symm (by simp)
        · exact stop_not_mem_txtrace (by rw [heq]; exact hm)
      next txtrace flag1 heq =>
        have h1 : BLEAction.stopNotify ∉ BLEAction.startNotify :: txtrace := by
          intro hmem
          rcases List.mem_cons.mp hmem with hm | hm
          · exact absurd hm.symm (by simp)
          · exact stop_not_mem_txtrace (by rw [heq]; exact hm)
        have h2 : (finishAttempt env.notifs
            (env.writeOk (packet_count request.length)) env.stopOk
            (packet_count request.length)
            (BLEAction.startNotify :: txtrace) flag1).1 ≠ Outcome.success := by
          rw [hres]
          exact h
        have h3 := finishAttempt_stop_not_mem h1 h2
        rw [hres] at h3
        exact h3
  · injection hres with h1 h2
    injection h2 with h2 h3
    rw [← h2]
    simp

theorem bind_ap_flag_mono (env : Env) (ssid password : String) :
    (bind_ap env true ssid password).2.2 = true := by
  unfold bind_ap
  split
  · split
    · rfl
    next request ha =>
      unfold bindTransfer
      have hft : (runTransmit env.writeOk env.writeNotifs request
          (packet_count request.length) (packet_count request.length) 0
          true).2.1 = true :=
        runTransmit_flag_true (packet_count request.length) 0
      rcases heq : runTransmit env.writeOk env.writeNotifs request
          (packet_count request.length) (packet_count request.length) 0
          true with ⟨txtrace, flag1, err⟩
      rw [heq] at hft
      simp only at hft
      subst hft
      rcases err with _ | e
      · simp only []
        exact finishAttempt_flag_true
      · rfl
  · rfl

theorem bind_ap_ne_nameError (env : Env) (flag0 : Bool)
    (ssid password : String) :
    (bind_ap env flag0 ssid password).1 ≠ Outcome.nameError := by
  unfold bind_ap
  split
  · split
    · simp
    next request ha =>
      unfold bindTransfer
      rcases heq : runTransmit env.writeOk env.writeNotifs request
          (packet_count request.length) (packet_count request.length) 0
          flag0 with ⟨txtrace, flag1, err⟩
      rcases err with _ | e
      · have hpc : packet_count request.length ≠ 0 := by
          have h1 : 1 ≤ packet_count request.length :=
            packet_count_pos (by have := as_bytes_length ha; omega)
          omega
        exact finishAttempt_ne_nameError hpc
      · have hsome : (runTransmit env.writeOk env.writeNotifs request
            (packet_count request.length) (packet_count request.length) 0
            flag0).2.2 = some e := by rw [heq]
        have hcase := runTransmit_err_cases
          (packet_count request.length) 0 flag0 e hsome
        rcases hcase with hcase | hcase <;> simp [hcase]
  · simp

theorem bind_ap_stopOk_indep (env : Env) (b : Bool) (flag0 : Bool)
    (ssid password : String) :
    bind_ap { env with stopOk := b } flag0 ssid password =
      bind_ap env flag0 ssid password := rfl

/-! ### The claims -/

/-- Claim C6: for every notification payload delivered to the handler, the
transfer-done flag is set to done exactly when the payload is the 5-byte
completion signal `0x00 0x11 0x00 0x15 0x01`; any other payload leaves the
flag unchanged (logged, neither success nor fatal). -/
theorem C6_handler (flag : Bool) (data : List Nat) :
    (data = completionSignal → notification_handler flag data = true) ∧
    (data ≠ completionSignal → notification_handler flag data = flag) ∧
    (notification_handler false data = true ↔ data = completionSignal) := by
  refine ⟨?_, ?_, ?_, ?_⟩
  · intro h; simp [notification_handler, h]
  · intro h; simp [notification_handler, h]
  · intro h
    by_contra hc
    rw [notification_handler_not_signal false hc] at h
    exact absurd h (by simp)
  · intro h; simp [notification_handler, h]

/-- Witness for C6 at the completion signal and at an all-zero payload. -/
theorem C6_handler_witness :
    notification_handler false [0x00, 0x11, 0x00, 0x15, 0x01] = true ∧
    notification_handler false [0x00, 0x00, 0x00, 0x00, 0x00] = false :=
  ⟨(C6_handler false [0x00, 0x11, 0x00, 0x15, 0x01]).1 (by decide),
   (C6_handler false [0x00, 0x00, 0x00, 0x00, 0x00]).2.1 (by decide)⟩

/-- Claim C10: every successfully serialized blob starts with the two
1-byte length prefixes, so it has length at least 2, the packet count is at
least 1 (the transmit loop runs at least once), and the `seq` reuse after
the loop can never raise a `NameError` on any attempt. -/
theorem C10_blob_nonempty (ssid password : String) (request : List Nat)
    (h : as_bytes ssid password = some request) :
    2 ≤ request.length ∧ 1 ≤ packet_count request.length ∧
    (∀ env flag0 s2 p2, (bind_ap env flag0 s2 p2).1 ≠ Outcome.nameError) :=
  ⟨as_bytes_length h,
   packet_count_pos (by have := as_bytes_length h; omega),
   fun env flag0 s2 p2 => bind_ap_ne_nameError env flag0 s2 p2⟩

/-- Witness for C10 at a concrete SSID/password pair. -/
theorem C10_blob_nonempty_witness :
    as_bytes "Home" "secret12" =
      some [4, 72, 111, 109, 101, 8, 115, 101, 99, 114, 101, 116, 49, 50] ∧
    2 ≤ ([4, 72, 111, 109, 101, 8, 115, 101, 99, 114, 101, 116, 49,
      50] : List Nat).length :=
  ⟨by decide,
   (C10_blob_nonempty "Home" "secret12"
     [4, 72, 111, 109, 101, 8, 115, 101, 99, 114, 101, 116, 49, 50]
     (by decide)).1⟩

/-- Claim C2 (amended): for every packet the loop actually emits, the tag
byte equals `((seq+1) <<< 4) + packet_count`, which is below 256 (hence
trivially equal to its value mod 256); but when that value (or `seq`)
reaches 256, `to_bytes(1, 'little')` raises `OverflowError` and the attempt
aborts — the tag byte is never wrapped modulo 256 on the wire. -/
theorem C2_tag_byte (request : List Nat) (seq pc : Nat) :
    (∀ pkt, mkPacket request seq pc = some pkt →
      pkt[1]? = some (csum seq pc) ∧ csum seq pc < 256 ∧
        csum seq pc % 256 = csum seq pc) ∧
    (mkPacket request seq pc = none ↔ 256 ≤ seq ∨ 256 ≤ csum seq pc) := by
  constructor
  · intro pkt h
    obtain ⟨hpkt, hs, hc⟩ := mkPacket_some_inv h
    subst hpkt
    exact ⟨rfl, hc, Nat.mod_eq_of_lt hc⟩
  · exact mkPacket_none_iff

/-- Witness for C2 at a written packet and at an overflowing one. -/
theorem C2_tag_byte_witness :
    ([0, 17, 0, 21, 1, 65, 1, 66] : List Nat)[1]? = some (csum 0 1) ∧
    mkPacket [] 14 16 = none :=
  ⟨((C2_tag_byte [1, 65, 1, 66] 0 1).1 [0, 17, 0, 21, 1, 65, 1, 66]
      (by decide)).1,
   (C2_tag_byte [] 14 16).2.mpr (by decide)⟩

/-- Counterexample to C2 as stated: at `seq = 14`, `packet_count = 16` the
tag value is exactly 256; instead of writing `256 mod 256 = 0` the
`to_bytes` call raises `OverflowError`, and the codec-producible 241-byte
blob of a 239-character ASCII SSID makes `bind_ap` abort with that error
mid-transfer — overflow fails, it does not wrap. -/
theorem C2_counterexample :
    csum 14 16 = 256 ∧ toBytes1 (csum 14 16) = none ∧
    mkPacket (List.replicate 241 0) 14 16 = none ∧
    (bind_ap envQuiet false (String.mk (List.replicate 239 'a')) "").1 =
      Outcome.overflowError := by decide

/-- Claim C8 (amended): serialization fails (raising `OverflowError`, hence
before any write) iff the SSID's or the password's length in characters
exceeds 255, and an emitted blob always carries the exact character counts —
nothing is truncated or wrapped.  The check is on the code-point count, not
the encoded byte length: a field whose UTF-8 encoding exceeds 255 bytes
while its character count is at most 255 serializes without error. -/
theorem C8_length_check (ssid password : String) :
    (as_bytes ssid password = none ↔
      255 < ssid.length ∨ 255 < password.length) ∧
    (∀ request, as_bytes ssid password = some request →
      request = ssid.length ::
        (strBytes ssid ++ (password.length :: strBytes password))) :=
  ⟨as_bytes_none_iff, fun _ h => (as_bytes_some_inv h).1⟩

/-- Witness for C8: a 256-character SSID fails; a short pair serializes to
the exact charcount-prefixed blob. -/
theorem C8_length_check_witness :
    as_bytes (String.mk (List.replicate 256 'a')) "x" = none ∧
    ([2, 97, 98, 1, 99] : List Nat) =
      "ab".length :: (strBytes "ab" ++ ("c".length :: strBytes "c")) :=
  ⟨(C8_length_check (String.mk (List.replicate 256 'a')) "x").1.mpr
     (Or.inl (by decide)),
   (C8_length_check "ab" "c").2 [2, 97, 98, 1, 99] (by decide)⟩

/-- Counterexample to C8 as stated: an SSID of 128 copies of a two-byte
character has encoded byte length 256 > 255, yet serialization does not
fail — the length check only sees the character count 128. -/
theorem C8_counterexample :
    255 < (strBytes (String.mk (List.replicate 128 'é'))).length ∧
    as_bytes (String.mk (List.replicate 128 'é')) "x" ≠ none := by decide

/-- Claim C1 (amended): for SSID/password pairs of single-byte (ASCII)
characters, at most 255 each — exactly the pairs for which the character
count written as the length prefix coincides with the field's encoded byte
length — `as_bytes` produces `len(ssid) || ssid_bytes || len(password) ||
password_bytes` and the inverse length-prefixed parse recovers both strings
exactly. -/
theorem C1_roundtrip (ssid password : String)
    (hs : ∀ c ∈ ssid.data, c.toNat < 128)
    (hp : ∀ c ∈ password.data, c.toNat < 128)
    (hsl : ssid.length ≤ 255) (hpl : password.length ≤ 255) :
    as_bytes ssid password =
      some (ssid.length ::
        (strBytes ssid ++ (password.length :: strBytes password))) ∧
    (strBytes ssid).length = ssid.length ∧
    (strBytes password).length = password.length ∧
    parseBlob (ssid.length ::
        (strBytes ssid ++ (password.length :: strBytes password))) =
      some (ssid, password) :=
  ⟨as_bytes_some ssid password hsl hpl, strBytes_ascii_length hs,
   strBytes_ascii_length hp, parseBlob_roundtrip_ascii ssid password hs hp⟩

/-- Witness for C1 at the spec's own scenario pair. -/
theorem C1_roundtrip_witness :
    as_bytes "Home" "secret12" =
      some ("Home".length ::
        (strBytes "Home" ++ ("secret12".length :: strBytes "secret12"))) ∧
    parseBlob ("Home".length ::
        (strBytes "Home" ++ ("secret12".length :: strBytes "secret12"))) =
      some ("Home", "secret12") :=
  ⟨(C1_roundtrip "Home" "secret12" (by decide) (by decide) (by decide)
      (by decide)).1,
   (C1_roundtrip "Home" "secret12" (by decide) (by decide) (by decide)
      (by decide)).2.2.2⟩

/-- Counterexample to C1 as stated: for `ssid = "é"`, `password = ""` both
encoded byte lengths (2 and 0) lie in `[0, 255]`, yet the emitted blob is
`[1, 0xC3, 0xA9, 0x00]` — prefixed by the character count 1, not the byte
length 2 — and the inverse length-prefixed parse of that blob fails instead
of recovering the strings. -/
theorem C1_counterexample :
    (strBytes "é").length = 2 ∧ (strBytes "").length = 0 ∧
    as_bytes "é" "" = some [1, 0xC3, 0xA9, 0x00] ∧
    [1, 0xC3, 0xA9, 0x00] ≠
      ((strBytes "é").length ::
        (strBytes "é" ++ ((strBytes "").length :: strBytes ""))) ∧
    parseBlob [1, 0xC3, 0xA9, 0x00] = none := by decide

/-- Claim C4 (amended): for every blob whose packet count is at most 15
(i.e. at most 240 bytes — beyond that the tag byte overflows and the
transfer aborts, see the counterexample), the loop uses `packet_count =
ceil(len/16)` and emits exactly `packet_count` packets in strictly
increasing `seq` order 0, 1, ... with no gaps, packet `i` being
`[i][tag][0x00][0x15][chunk]` with `chunk` the 16-byte slice of the blob at
offset `i*16` (the last one shorter, unpadded), and the chunks concatenate
back to the blob exactly. -/
theorem C4_packetization (writeOk : Nat → Bool)
    (deliver : Nat → List (List Nat)) (request : List Nat) (flag : Bool)
    (hw : ∀ k, writeOk k = true)
    (hpc : packet_count request.length ≤ 15) :
    packet_count request.length = (request.length + 15) / 16 ∧
    ∃ pkts : List (List Nat),
      (runTransmit writeOk deliver request (packet_count request.length)
        (packet_count request.length) 0 flag).1 = pkts.map BLEAction.write ∧
      (runTransmit writeOk deliver request (packet_count request.length)
        (packet_count request.length) 0 flag).2.2 = none ∧
      pkts.length = packet_count request.length ∧
      (∀ i, (hi : i < pkts.length) → pkts.get ⟨i, hi⟩ =
        i :: csum i (packet_count request.length) :: 0x00 :: 0x15 ::
          ((request.drop (i * PACKET_SIZE)).take PACKET_SIZE)) ∧
      (pkts.map (fun pkt => pkt.drop 4)).flatten = request := by
  obtain ⟨h1, h2⟩ := runTransmit_ok hw hpc (packet_count request.length) 0
    flag (by omega)
  refine ⟨packet_count_eq request.length,
    (List.range (packet_count request.length)).map (fun i =>
      i :: csum i (packet_count request.length) :: 0x00 :: 0x15 ::
        ((request.drop (i * PACKET_SIZE)).take PACKET_SIZE)),
    ?_, h2, ?_, ?_, ?_⟩
  · rw [h1, List.range_eq_range', List.map_map]
    rfl
  · simp
  · intro i hi
    rw [List.get_eq_getElem]
    simp [List.getElem_map]
  · rw [List.map_map]
    have hcomp : ((fun pkt : List Nat => pkt.drop 4) ∘ (fun i =>
        i :: csum i (packet_count request.length) :: 0x00 :: 0x15 ::
          ((request.drop (i * PACKET_SIZE)).take PACKET_SIZE))) =
        (fun i => (request.drop (i * PACKET_SIZE)).take PACKET_SIZE) := by
      funext i
      rfl
    rw [hcomp]
    exact chunks_flatten (packet_count request.length) request rfl

/-- Witness for C4 at a concrete 4-byte blob. -/
theorem C4_packetization_witness :
    packet_count ([1, 65, 1, 66] : List Nat).length ≤ 15 ∧
    packet_count ([1, 65, 1, 66] : List Nat).length =
      (([1, 65, 1, 66] : List Nat).length + 15) / 16 :=
  ⟨by decide,
   (C4_packetization (fun _ => true) (fun _ => []) [1, 65, 1, 66] false
     (fun _ => rfl) (by decide)).1⟩

/-- Counterexample to C4 as stated: the codec-produced blob of a
239-character ASCII SSID has length 241, so `packet_count = 16`, but the
attempt aborts with `OverflowError` after writing only 14 of the 16 packets
(the trace holds `start_notify` plus 14 writes), so the emitted chunks do
not reconstruct the blob. -/
theorem C4_counterexample :
    (as_bytes (String.mk (List.replicate 239 'a')) "").map List.length =
      some 241 ∧
    packet_count 241 = 16 ∧
    (bind_ap envQuiet false (String.mk (List.replicate 239 'a')) "").1 =
      Outcome.overflowError ∧
    (bind_ap envQuiet false
      (String.mk (List.replicate 239 'a')) "").2.1.length = 15 := by decide

/-- Claim C3 (amended): the notification subscription is released via
`stop_notify` only on the success path, where it is the final action after
the ack write and its failure is suppressed — the attempt's entire result is
independent of the unsubscribe outcome; on the timeout and transport/encoding
error exit paths `bind_ap` raises without any unsubscribe call (only the
connection context exit cleans up). -/
theorem C3_unsubscribe (env : Env) (flag0 : Bool) (ssid password : String)
    (out : Outcome) (tr : List BLEAction) (fl : Bool)
    (hres : bind_ap env flag0 ssid password = (out, tr, fl)) :
    (out = Outcome.success → tr.getLast? = some BLEAction.stopNotify) ∧
    (out ≠ Outcome.success → BLEAction.stopNotify ∉ tr) ∧
    (∀ b, bind_ap { env with stopOk := b } flag0 ssid password =
      (out, tr, fl)) := by
  refine ⟨?_, fun h => bind_ap_stop_not_mem hres h,
    fun b => (bind_ap_stopOk_indep env b flag0 ssid password).trans hres⟩
  intro hout
  subst hout
  obtain ⟨request, n, txtrace, -, -, -, -, -, htr⟩ := bind_ap_success_inv hres
  rw [htr]
  have hsplit : (BLEAction.startNotify :: txtrace) ++
      List.replicate n BLEAction.sleep300 ++
      [BLEAction.write
        [packet_count request.length - 1 + 1, 0x11, 0x00, 0x16],
        BLEAction.stopNotify] =
      ((BLEAction.startNotify :: txtrace) ++
        List.replicate n BLEAction.sleep300 ++
        [BLEAction.write
          [packet_count request.length - 1 + 1, 0x11, 0x00, 0x16]]) ++
        [BLEAction.stopNotify] := by
    simp
  rw [hsplit, List.getLast?_concat]

/-- Witness for C3 at a timed-out concrete run. -/
theorem C3_unsubscribe_witness :
    BLEAction.stopNotify ∉ (bind_ap envQuiet false "A" "B").2.1 :=
  (C3_unsubscribe envQuiet false "A" "B" (bind_ap envQuiet false "A" "B").1
    (bind_ap envQuiet false "A" "B").2.1
    (bind_ap envQuiet false "A" "B").2.2 (by decide)).2.1 (by decide)

/-- Counterexample to C3 as stated: on the timeout exit path the
subscription is never released — the trace of a timed-out attempt contains
no `stop_notify` action at all. -/
theorem C3_counterexample :
    (bind_ap envQuiet false "A" "B").1 = Outcome.timeout ∧
    BLEAction.stopNotify ∉ (bind_ap envQuiet false "A" "B").2.1 := by decide

/-- Claim C5: when the completion flag is never set — entry flag false and no
completion signal ever delivered — and the transmit phase completes without
raising, `bind_ap` sleeps and polls exactly 60 times at 0.3 s each (18
seconds), fails with the timeout exception (`"AP binding timeout"`), and
writes nothing after the polls: every write in the whole trace is a data
packet (4th byte `0x15`), never the ack (4th byte `0x16`). -/
theorem C5_timeout (env : Env) (ssid password : String) (request : List Nat)
    (hsub : env.subscribeOk = true)
    (henc : as_bytes ssid password = some request)
    (hwn : ∀ i, completionSignal ∉ env.writeNotifs i)
    (hn : ∀ i, completionSignal ∉ env.notifs i)
    (htx : (runTransmit env.writeOk env.writeNotifs request
      (packet_count request.length) (packet_count request.length) 0
      false).2.2 = none) :
    bind_ap env false ssid password =
      (Outcome.timeout,
        (BLEAction.startNotify ::
          (runTransmit env.writeOk env.writeNotifs request
            (packet_count request.length) (packet_count request.length) 0
            false).1) ++ List.replicate 60 BLEAction.sleep300,
        false) ∧
    (bind_ap env false ssid password).2.1.count BLEAction.sleep300 = 60 ∧
    (60 : ℚ) * sleepSeconds = 18 ∧
    (∀ pkt, BLEAction.write pkt ∈ (bind_ap env false ssid password).2.1 →
      ∃ i, mkPacket request i (packet_count request.length) = some pkt ∧
        pkt[3]? = some 0x15) := by
  have hba : bind_ap env false ssid password =
      bindTransfer env false request := by
    unfold bind_ap
    rw [if_pos hsub, henc]
  have hflag : (runTransmit env.writeOk env.writeNotifs request
      (packet_count request.length) (packet_count request.length) 0
      false).2.1 = false :=
    runTransmit_flag_no_signal hwn (packet_count request.length) 0
  have hbt : bindTransfer env false request =
      (Outcome.timeout,
        (BLEAction.startNotify ::
          (runTransmit env.writeOk env.writeNotifs request
            (packet_count request.length) (packet_count request.length) 0
            false).1) ++ List.replicate 60 BLEAction.sleep300,
        false) := by
    unfold bindTransfer
    rcases heq : runTransmit env.writeOk env.writeNotifs request
        (packet_count request.length) (packet_count request.length) 0
        false with ⟨txtrace, flag1, err⟩
    have herr : err = none := by rw [heq] at htx; exact htx
    have hfl1 : flag1 = false := by rw [heq] at hflag; exact hflag
    subst herr hfl1
    exact finishAttempt_timeout hn _ _ _ _
  have htrace := hba.trans hbt
  refine ⟨htrace, ?_, by norm_num [sleepSeconds], ?_⟩
  · rw [htrace]
    have h0 : ((runTransmit env.writeOk env.writeNotifs request
        (packet_count request.length) (packet_count request.length) 0
        false).1).count BLEAction.sleep300 = 0 :=
      List.count_eq_zero.mpr sleep_not_mem_txtrace
    simp [List.count_append, List.count_cons, h0]
  · intro pkt hmem
    rw [htrace] at hmem
    rcases List.mem_append.mp hmem with hm | hm
    · rcases List.mem_cons.mp hm with hm2 | hm2
      · exact absurd hm2 (by simp)
      · obtain ⟨i, pkt2, heq2, hmk⟩ := runTransmit_mem hm2
        injection heq2 with hpe
        subst hpe
        obtain ⟨hshape, -, -⟩ := mkPacket_some_inv hmk
        refine ⟨i, hmk, ?_⟩
        rw [hshape]
        simp
    · exact absurd (List.eq_of_mem_replicate hm) (by simp)

/-- Witness for C5 on a quiet environment and a 4-byte blob. -/
theorem C5_timeout_witness :
    envQuiet.subscribeOk = true ∧ as_bytes "A" "B" = some [1, 65, 1, 66] ∧
    (bind_ap envQuiet false "A" "B").2.1.count BLEAction.sleep300 = 60 :=
  ⟨rfl, by decide,
   (C5_timeout envQuiet "A" "B" [1, 65, 1, 66] rfl (by decide)
     (fun i => List.not_mem_nil _) (fun i => List.not_mem_nil _)
     (by decide)).2.1⟩

/-- Claim C7: a successful attempt writes exactly one ack packet, as its
last write (followed only by the unsubscribe): `[last_seq+1][0x11][0x00]
[0x16]` where `last_seq` is the loop's final value `packet_count - 1`, so
the ack's first byte equals `packet_count`; no earlier trace element is that
ack. -/
theorem C7_ack (env : Env) (flag0 : Bool) (ssid password : String)
    (tr : List BLEAction) (fl : Bool)
    (h : bind_ap env flag0 ssid password = (Outcome.success, tr, fl)) :
    ∃ request pre,
      as_bytes ssid password = some request ∧
      1 ≤ packet_count request.length ∧
      packet_count request.length - 1 + 1 = packet_count request.length ∧
      tr = pre ++
        [BLEAction.write [packet_count request.length, 0x11, 0x00, 0x16],
          BLEAction.stopNotify] ∧
      BLEAction.write [packet_count request.length, 0x11, 0x00, 0x16] ∉
        pre := by
  obtain ⟨request, n, txtrace, ha, hpc0, hblt, hfl, hmem, htr⟩ :=
    bind_ap_success_inv h
  have hpc1 : packet_count request.length - 1 + 1 =
      packet_count request.length := by omega
  refine ⟨request, (BLEAction.startNotify :: txtrace) ++
    List.replicate n BLEAction.sleep300, ha, by omega, hpc1, ?_, ?_⟩
  · rw [htr, hpc1]
  · intro hin
    rcases List.mem_append.mp hin with hm | hm
    · rcases List.mem_cons.mp hm with hm2 | hm2
      · exact absurd hm2 (by simp)
      · obtain ⟨i, pkt, heq2, hmk⟩ := hmem _ hm2
        obtain ⟨hshape, -, -⟩ := mkPacket_some_inv hmk
        rw [hshape] at heq2
        injection heq2 with hl
        simp at hl
    · exact absurd (List.eq_of_mem_replicate hm) (by simp)

/-- Witness for C7 on a concrete successful run. -/
theorem C7_ack_witness :
    ∃ request pre,
      as_bytes "Home" "secret12" = some request ∧
      1 ≤ packet_count request.length ∧
      packet_count request.length - 1 + 1 = packet_count request.length ∧
      (bind_ap envSignal false "Home" "secret12").2.1 = pre ++
        [BLEAction.write [packet_count request.length, 0x11, 0x00, 0x16],
          BLEAction.stopNotify] ∧
      BLEAction.write [packet_count request.length, 0x11, 0x00, 0x16] ∉
        pre :=
  C7_ack envSignal false "Home" "secret12"
    (bind_ap envSignal false "Home" "secret12").2.1
    (bind_ap envSignal false "Home" "secret12").2.2 (by decide)

/-- Claim C9: the done-flag is class-initialized to false and `bind_ap`
never resets it — a true entry flag stays true on every exit path, and every
successful attempt leaves it true — so a second call on the same instance
(entry flag true), even with no fresh completion signal delivered, succeeds:
it breaks out of the wait at the very first poll (a single 0.3 s sleep) and
writes the ack without waiting for a new notification. -/
theorem C9_flag_persistence (env : Env) (ssid password : String)
    (request : List Nat)
    (hsub : env.subscribeOk = true)
    (hw : ∀ k, env.writeOk k = true)
    (hwn : ∀ i, completionSignal ∉ env.writeNotifs i)
    (hn : ∀ i, completionSignal ∉ env.notifs i)
    (henc : as_bytes ssid password = some request)
    (hpc : packet_count request.length ≤ 15) :
    bind_ap_done_init = false ∧
    (∀ env2 s2 p2, (bind_ap env2 true s2 p2).2.2 = true) ∧
    (∀ env2 f0 s2 p2 tr2 fl2,
      bind_ap env2 f0 s2 p2 = (Outcome.success, tr2, fl2) → fl2 = true) ∧
    (bind_ap env true ssid password).1 = Outcome.success ∧
    (bind_ap env true ssid password).2.1.count BLEAction.sleep300 = 1 := by
  have hpcpos : 1 ≤ packet_count request.length :=
    packet_count_pos (by have := as_bytes_length henc; omega)
  have hba : bind_ap env true ssid password =
      bindTransfer env true request := by
    unfold bind_ap
    rw [if_pos hsub, henc]
  obtain ⟨h1, h2⟩ := runTransmit_ok hw hpc (packet_count request.length) 0
    true (by omega)
  have hft : (runTransmit env.writeOk env.writeNotifs request
      (packet_count request.length) (packet_count request.length) 0
      true).2.1 = true :=
    runTransmit_flag_true (packet_count request.length) 0
  have hbt : bindTransfer env true request =
      (Outcome.success,
        (BLEAction.startNotify ::
          (runTransmit env.writeOk env.writeNotifs request
            (packet_count request.length) (packet_count request.length) 0
            true).1) ++ List.replicate 1 BLEAction.sleep300 ++
          [BLEAction.write
            [packet_count request.length - 1 + 1, 0x11, 0x00, 0x16],
            BLEAction.stopNotify],
        true) := by
    unfold bindTransfer
    rcases heq : runTransmit env.writeOk env.writeNotifs request
        (packet_count request.length) (packet_count request.length) 0
        true with ⟨txtrace, flag1, err⟩
    have herr : err = none := by rw [heq] at h2; exact h2
    have hfl1 : flag1 = true := by rw [heq] at hft; exact hft
    subst herr hfl1
    show finishAttempt env.notifs (env.writeOk (packet_count request.length))
        env.stopOk (packet_count request.length)
        (BLEAction.startNotify :: txtrace) true = _
    rw [hw (packet_count request.length)]
    exact finishAttempt_done env.stopOk (packet_count request.length)
      (by omega) (by omega) (BLEAction.startNotify :: txtrace)
  refine ⟨rfl, fun env2 s2 p2 => bind_ap_flag_mono env2 s2 p2, ?_, ?_, ?_⟩
  · intro env2 f0 s2 p2 tr2 fl2 hres
    obtain ⟨-, -, -, -, -, -, hfl, -, -⟩ := bind_ap_success_inv hres
    exact hfl
  · rw [hba, hbt]
  · rw [hba, hbt]
    have h0 : ((runTransmit env.writeOk env.writeNotifs request
        (packet_count request.length) (packet_count request.length) 0
        true).1).count BLEAction.sleep300 = 0 :=
      List.count_eq_zero.mpr sleep_not_mem_txtrace
    simp [List.count_append, List.count_cons, h0]

/-- Witness for C9 on a quiet environment: with the flag already set, the
second attempt succeeds without any completion signal. -/
theorem C9_flag_persistence_witness :
    bind_ap_done_init = false ∧
    (bind_ap envQuiet true "A" "B").1 = Outcome.success :=
  ⟨(C9_flag_persistence envQuiet "A" "B" [1, 65, 1, 66] rfl (fun _ => rfl)
      (fun i => List.not_mem_nil _) (fun i => List.not_mem_nil _)
      (by decide) (by decide)).1,
   (C9_flag_persistence envQuiet "A" "B" [1, 65, 1, 66] rfl (fun _ => rfl)
      (fun i => List.not_mem_nil _) (fun i => List.not_mem_nil _)
      (by decide) (by decide)).2.2.2.1⟩
